import Mathlib

/-!
# MMA7660 accelerometer driver (`mma7669.c`)

A shallow embedding of the driver's configuration store path, its register
read loops, its event reporting and its diagnostic text, with the properties
of the specification stated over that embedding.

Conventions of the embedding
* C `int` / `s32` values are `Int`; a store into an `s8` or `u8` object is an
  explicit reduction modulo `2^8` (`to_s8`, `to_u8`), and the bit operators on
  `int` act on the 32 bit two's complement pattern (`int_and`, `int_or`,
  `int_not`).
* The I2C core (`i2c_smbus_read_byte_data`, `i2c_smbus_write_byte_data`) is not
  part of the driver. It is a parameter: an `I2cBus` answers every transaction
  as a function of the history of transactions issued so far.
* The unbounded `do ... while` loops take a fuel argument counting loop
  iterations; `none` means that the loop is still running when the fuel is
  spent.
* C strings are `String`s; `strcpy` / `strcat` into the zeroed 128 byte
  `tilt_buf` are assignment and append.
-/

namespace MMA7660

/-! ## Register map and constants -/

def XOUT : Nat := 0x00
def YOUT : Nat := 0x01
def ZOUT : Nat := 0x02
def TILT : Nat := 0x03
def SRST : Nat := 0x04
def SPCNT : Nat := 0x05
def INTSU : Nat := 0x06
def MODE : Nat := 0x07
def SR : Nat := 0x08
def PDET : Nat := 0x09
def PD : Nat := 0x0A

def MMA7660_ABS_MIN_VAL : Int := -32
def MMA7660_ABS_MAX_VAL : Int := 31

def SHAKE_ENABLE : Nat := 1
def TAP_ENABLE : Nat := 2
def SAMPLES_PER_SEC : Nat := 3

/-- The kernel's `EINVAL` errno. -/
def EINVAL : Int := 22

/-! ## The I2C transport -/

/-- One SMBus transaction issued by the driver. -/
inductive I2cOp where
  | read (reg : Nat)
  | write (reg : Nat) (val : Nat)
  deriving DecidableEq, Repr

/-- The transport: the `s32` result of a byte read and the `s32` result of a
byte write, each as a function of the transactions issued before it. -/
structure I2cBus where
  read_byte_data : List I2cOp → Nat → Int
  write_byte_data : List I2cOp → Nat → Nat → Int

/-- The client handle, reduced to the chronological record of its
transactions. -/
abbrev i2c_client := List I2cOp

/-- Models `i2c_smbus_read_byte_data(client, reg)`: result and extended history. -/
def i2c_smbus_read_byte_data (bus : I2cBus) (client : i2c_client) (reg : Nat) :
    Int × i2c_client :=
  (bus.read_byte_data client reg, client ++ [I2cOp.read reg])

/-- Models `i2c_smbus_write_byte_data(client, reg, val)`: result and extended history. -/
def i2c_smbus_write_byte_data (bus : I2cBus) (client : i2c_client) (reg val : Nat) :
    Int × i2c_client :=
  (bus.write_byte_data client reg val, client ++ [I2cOp.write reg val])

/-! ## Machine integers -/

/-- Conversion of an `int` to `s8` (two's complement, 8 bits). -/
def to_s8 (v : Int) : Int := (v + 128) % 256 - 128

/-- Conversion of an `int` to `u8`. -/
def to_u8 (v : Int) : Nat := (v % 256).toNat

/-- The 32 bit two's complement pattern of an `int`. -/
def int_bits (v : Int) : Nat := (v % 2 ^ 32).toNat

/-- The `int` that has a given 32 bit two's complement pattern. -/
def bits_int (n : Nat) : Int := ((n : Int) + 2 ^ 31) % 2 ^ 32 - 2 ^ 31

/-- The C operator `&` on `int`. -/
def int_and (a b : Int) : Int := bits_int (int_bits a &&& int_bits b)

/-- The C operator `|` on `int`. -/
def int_or (a b : Int) : Int := bits_int (int_bits a ||| int_bits b)

/-- The C operator `~` on `int`. -/
def int_not (a : Int) : Int := bits_int (int_bits a ^^^ (2 ^ 32 - 1))

/-! ## Configuration state -/

/-- The configuration fields of `struct mma7660_dev`. -/
structure mma7660_dev where
  shake_enable : Bool
  tap_enable : Bool
  samples_per_sec : Nat
  deriving DecidableEq, Repr

/-- The inner `switch (val)` of `mma7660_store`: the SR register value of a
sample rate, `none` for the `default:` branch. -/
def sr_reg_of (val : Int) : Option Nat :=
  if val = 120 then some 0x00
  else if val = 64 then some 0x01
  else if val = 32 then some 0x02
  else if val = 16 then some 0x03
  else if val = 8 then some 0x04
  else if val = 4 then some 0x05
  else if val = 2 then some 0x06
  else if val = 1 then some 0x07
  else none

/-- Models `mma7660_store`. `parsed` is the outcome of `sscanf(buf, "%d", &val)`
(`none` when it did not return 1). `count` is the size of the sysfs write, at
most one page, so that returning it as `ssize_t` keeps its value. The result
is the return value, the device state and the transaction history. -/
def mma7660_store (bus : I2cBus) (client : i2c_client) (dev : mma7660_dev)
    (parsed : Option Int) (count : Nat) (which : Nat) :
    Int × mma7660_dev × i2c_client :=
  match parsed with
  | none => (-EINVAL, dev, client)
  | some val =>
    if which = SHAKE_ENABLE then
      ((count : Int), { dev with shake_enable := decide (val ≠ 0) }, client)
    else if which = TAP_ENABLE then
      if val ≠ 0 ∧ 120 ≠ dev.samples_per_sec then
        (-EINVAL, dev, client)
      else
        ((count : Int), { dev with tap_enable := decide (val ≠ 0) }, client)
    else if which = SAMPLES_PER_SEC then
      match sr_reg_of val with
      | none => (-EINVAL, dev, client)
      | some sr_reg =>
        let r := i2c_smbus_write_byte_data bus client SR sr_reg
        if r.1 ≠ 0 then
          (r.1, dev, r.2)
        else
          let dev1 := { dev with samples_per_sec := to_u8 val }
          let dev2 := if val ≠ 120 then { dev1 with tap_enable := false } else dev1
          ((count : Int), dev2, r.2)
    else
      ((count : Int), dev, client)

/-- Models `mma7660_dev_init`: four configuration writes, the first failure is
returned; on success the defaults are stored. -/
def mma7660_dev_init (bus : I2cBus) (client : i2c_client) (dev : mma7660_dev) :
    Int × mma7660_dev × i2c_client :=
  let r1 := i2c_smbus_write_byte_data bus client INTSU (2 ^ 5 ||| 2 ^ 6 ||| 2 ^ 7)
  if r1.1 ≠ 0 then (r1.1, dev, r1.2)
  else
    let r2 := i2c_smbus_write_byte_data bus r1.2 SR 0x00
    if r2.1 ≠ 0 then (r2.1, dev, r2.2)
    else
      let r3 := i2c_smbus_write_byte_data bus r2.2 PDET 0x00
      if r3.1 ≠ 0 then (r3.1, dev, r3.2)
      else
        let r4 := i2c_smbus_write_byte_data bus r3.2 PD 0x1f
        if r4.1 ≠ 0 then (r4.1, dev, r4.2)
        else
          (0, { dev with samples_per_sec := 120, shake_enable := true, tap_enable := true },
            r4.2)

/-- One write to a configuration attribute: the attribute tag, the parsed
text and the size of the write. -/
structure StoreCall where
  which : Nat
  parsed : Option Int
  count : Nat

/-- A sequence of `mma7660_store` calls, threading the device state and the
transaction history. -/
def run_stores (bus : I2cBus) :
    List StoreCall → mma7660_dev × i2c_client → mma7660_dev × i2c_client
  | [], s => s
  | call :: rest, s =>
    run_stores bus rest (mma7660_store bus s.2 s.1 call.parsed call.count call.which).2

/-! ## Reading a sample -/

/-- The axis fields of `struct mma7660_xyz` (each an `s8`). -/
structure mma7660_xyz where
  xout : Int
  yout : Int
  zout : Int
  deriving DecidableEq, Repr

/-- How one axis read loop of `mma7660_get_xyz` is left: through the
`return` inside it, or through its `while` condition. -/
inductive AxisExit where
  | returned (ret : Int)
  | fell_through (raw : Int)
  deriving DecidableEq, Repr

/-- One axis loop of `mma7660_get_xyz`, for the register `reg`:
`do { a = i2c_smbus_read_byte_data(client, reg); if (a < 0) return a; } while (a & (1 << 6));`
where `a` is the `s8` field. Each unit of fuel pays for one iteration. -/
def axis_loop (bus : I2cBus) (reg : Nat) : Nat → i2c_client → Option (AxisExit × i2c_client)
  | 0, _ => none
  | fuel + 1, client =>
    let r := i2c_smbus_read_byte_data bus client reg
    let a := to_s8 r.1
    if a < 0 then some (AxisExit.returned a, r.2)
    else if int_and a (2 ^ 6) ≠ 0 then axis_loop bus reg fuel r.2
    else some (AxisExit.fell_through a, r.2)

/-- The assignment after an axis loop:
`a = (a & (1 << 5)) ? (a | (~0x3f)) : (a & 0x3f);` computed in `int`, stored as `s8`. -/
def axis_decode (a : Int) : Int :=
  to_s8 (if int_and a (2 ^ 5) ≠ 0 then int_or a (int_not 0x3f) else int_and a 0x3f)

/-- Models `mma7660_get_xyz`: return value, the `xyz` object as left behind,
and the transaction history. `none`: a loop is still running. -/
def mma7660_get_xyz (bus : I2cBus) (fuel : Nat) (client : i2c_client) (xyz : mma7660_xyz) :
    Option (Int × mma7660_xyz × i2c_client) :=
  match axis_loop bus XOUT fuel client with
  | none => none
  | some (AxisExit.returned e, c1) => some (e, { xyz with xout := e }, c1)
  | some (AxisExit.fell_through a, c1) =>
    let xyz1 := { xyz with xout := axis_decode a }
    match axis_loop bus YOUT fuel c1 with
    | none => none
    | some (AxisExit.returned e, c2) => some (e, { xyz1 with yout := e }, c2)
    | some (AxisExit.fell_through b, c2) =>
      let xyz2 := { xyz1 with yout := axis_decode b }
      match axis_loop bus ZOUT fuel c2 with
      | none => none
      | some (AxisExit.returned e, c3) => some (e, { xyz2 with zout := e }, c3)
      | some (AxisExit.fell_through c, c3) =>
        some (0, { xyz2 with zout := axis_decode c }, c3)

/-- Models `mma7660_get_tilt`: return value, `*tilt_stat` (a `u8`) and the
transaction history. The test `*tilt_stat < 0` is kept as written, on the
`u8` value. `none`: the loop is still running. -/
def mma7660_get_tilt (bus : I2cBus) : Nat → i2c_client → Option (Int × Nat × i2c_client)
  | 0, _ => none
  | fuel + 1, client =>
    let r := i2c_smbus_read_byte_data bus client TILT
    let tilt_stat := to_u8 r.1
    if (tilt_stat : Int) < 0 then some ((tilt_stat : Int), tilt_stat, r.2)
    else if tilt_stat &&& 2 ^ 6 ≠ 0 then mma7660_get_tilt bus fuel r.2
    else some (0, tilt_stat, r.2)

/-! ## Event reporting -/

/-- The absolute axes the driver reports on. -/
inductive AbsCode where
  | ABS_X
  | ABS_Y
  | ABS_Z
  | ABS_MT_ORIENTATION
  deriving DecidableEq, Repr

/-- The calls `mma7660_poll` makes into the input core. -/
inductive InputCall where
  | report_abs (code : AbsCode) (value : Int)
  | msc_gesture (value : Int)
  | key_btn_select (value : Int)
  | sync
  deriving DecidableEq, Repr

/-- Models `mma7660_poll`: the calls made into the input core, in order, and
the transaction history. `xyz` is the content of the local before the read. -/
def mma7660_poll (bus : I2cBus) (fuel : Nat) (client : i2c_client) (dev : mma7660_dev)
    (xyz : mma7660_xyz) : Option (List InputCall × i2c_client) :=
  match mma7660_get_xyz bus fuel client xyz with
  | none => none
  | some (ret, xyz1, c1) =>
    if ret ≠ 0 then some ([], c1)
    else
      match mma7660_get_tilt bus fuel c1 with
      | none => none
      | some (ret2, tilt_stat, c2) =>
        if ret2 ≠ 0 then some ([], c2)
        else
          some ([InputCall.report_abs AbsCode.ABS_X xyz1.xout,
                 InputCall.report_abs AbsCode.ABS_Y xyz1.yout,
                 InputCall.report_abs AbsCode.ABS_Z xyz1.zout,
                 InputCall.report_abs AbsCode.ABS_MT_ORIENTATION ((tilt_stat &&& 0x1f : Nat) : Int)]
                ++ (if dev.shake_enable then
                      [InputCall.msc_gesture (((tilt_stat >>> 7) &&& 0x01 : Nat) : Int)]
                    else [])
                ++ (if dev.tap_enable then
                      [InputCall.key_btn_select (((tilt_stat >>> 5) &&& 0x01 : Nat) : Int)]
                    else [])
                ++ [InputCall.sync], c2)

/-! ## Diagnostic text -/

/-- Models `mma7660_get_tilt_buf`: the string left in the zeroed `tilt_buf`. -/
def mma7660_get_tilt_buf (dev : mma7660_dev) (tilt_stat : Nat) : String :=
  let b0 : String :=
    if dev.shake_enable then
      if tilt_stat &&& 2 ^ 7 ≠ 0 then "Experiencing shake\n" else "Not experiencing shake\n"
    else "Shake disabled\n"
  let b1 : String :=
    if dev.tap_enable then
      if tilt_stat &&& 2 ^ 5 ≠ 0 then b0 ++ "Tap detected\n" else b0 ++ "No tap detected\n"
    else b0 ++ "Tap disabled\n"
  let b2 : String := b1 ++ "Facing : "
  let b3 : String :=
    match tilt_stat &&& 0x03 with
    | 0 => b2 ++ "Unknown\n"
    | 1 => b2 ++ "Front\n"
    | 2 => b2 ++ "Back\n"
    | _ => b2
  match (tilt_stat &&& 0x1c) >>> 2 with
  | 0 => b3 ++ "Unknown PoLa"
  | 1 => b3 ++ "Landscape-Left"
  | 2 => b3 ++ "Landscape-Right"
  | 5 => b3 ++ "Portrait-Inverted"
  | 6 => b3 ++ "Portrait-Normal"
  | _ => b3

/-- The conversion `%3d` of `sprintf`: the decimal digits of `v`, with a
leading `-` when negative, padded with blanks on the left to three
characters. -/
def fmt_3d (v : Int) : String :=
  let d : String := if v < 0 then "-" ++ Nat.repr v.natAbs else Nat.repr v.natAbs
  String.mk (List.replicate (3 - d.length) ' ') ++ d

/-- The string `sprintf` produces in `mma7660_debug_read` for the local `buff`. -/
def debug_buff (xyz : mma7660_xyz) (tilt_buf : String) : String :=
  "===========================\n"
    ++ " X : " ++ fmt_3d xyz.xout ++ "\n Y : " ++ fmt_3d xyz.yout ++ "\n Z : "
    ++ fmt_3d xyz.zout ++ "\n\nTilt info :\n" ++ tilt_buf ++ "\n"
    ++ "===========================\n"

/-- Size of the locals `buff` and `tilt_buf` of `mma7660_debug_read`. -/
def DEBUG_BUF_SIZE : Nat := 128

/-- Models `mma7660_debug_read` up to `copy_to_user`: the return value when
a read failed, else the text formatted into `buff`. -/
def mma7660_debug_read (bus : I2cBus) (fuel : Nat) (client : i2c_client) (dev : mma7660_dev)
    (xyz : mma7660_xyz) : Option (Except Int String × i2c_client) :=
  match mma7660_get_xyz bus fuel client xyz with
  | none => none
  | some (retcnt, xyz1, c1) =>
    if retcnt ≠ 0 then some (Except.error retcnt, c1)
    else
      match mma7660_get_tilt bus fuel c1 with
      | none => none
      | some (retcnt2, tilt_stat, c2) =>
        if retcnt2 ≠ 0 then some (Except.error retcnt2, c2)
        else some (Except.ok (debug_buff xyz1 (mma7660_get_tilt_buf dev tilt_stat)), c2)

/-! ## Tables of the specification -/

/-- The rate table of the specification: samples per second and SR register
value. -/
def rate_table : List (Int × Nat) :=
  [(120, 0), (64, 1), (32, 2), (16, 3), (8, 4), (4, 5), (2, 6), (1, 7)]

/-- The eight supported sample rates of the specification. -/
def supported_rates : List Int := [120, 64, 32, 16, 8, 4, 2, 1]

/-- The configuration invariant of the specification: tap detection is only
enabled at 120 samples per second. -/
def tap_needs_120 (dev : mma7660_dev) : Prop :=
  dev.tap_enable = true → dev.samples_per_sec = 120

/-! ## Reading a sample: vocabulary of the specification -/

/-- The 6-bit two's complement value of the low six bits of a byte, in the
words of the specification: `b & 0x3f` when bit 5 is clear, `(b & 0x3f) - 64`
when bit 5 is set. -/
def sext6 (b : Nat) : Int :=
  if b &&& 0x20 = 0 then ((b &&& 0x3f : Nat) : Int) else ((b &&& 0x3f : Nat) : Int) - 64

/-- A successful reply of an axis register with the busy bit (bit 6) set and
bit 7 clear: a byte in 0x40 .. 0x7f. -/
def axis_busy (r : Int) : Prop := 64 ≤ r ∧ r ≤ 127

/-- A successful reply of the TILT register with the busy bit (bit 6) set. -/
def tilt_busy (r : Int) : Prop := 0 ≤ r ∧ r ≤ 255 ∧ r.toNat &&& 0x40 ≠ 0

/-- From the history `h` on, the next `k` reads of `reg` are answered with
busy bytes (bit 6 set, bit 7 clear) and the read after them with `b`. -/
def busy_then (bus : I2cBus) (reg : Nat) (h : i2c_client) (k : Nat) (b : Int) : Prop :=
  (∀ i, i < k → axis_busy (bus.read_byte_data (h ++ List.replicate i (I2cOp.read reg)) reg)) ∧
  bus.read_byte_data (h ++ List.replicate k (I2cOp.read reg)) reg = b

/-! ## Diagnostic text: tables of the specification -/

/-- The shake line: gated by `shake_enable`, chosen by bit 7 of the status. -/
def shake_line (dev : mma7660_dev) (s : Nat) : String :=
  if dev.shake_enable = true then
    if s.testBit 7 = true then "Experiencing shake\n" else "Not experiencing shake\n"
  else "Shake disabled\n"

/-- The tap line: gated by `tap_enable`, chosen by bit 5 of the status. -/
def tap_line (dev : mma7660_dev) (s : Nat) : String :=
  if dev.tap_enable = true then
    if s.testBit 5 = true then "Tap detected\n" else "No tap detected\n"
  else "Tap disabled\n"

/-- The facing word line as the claim C8 has it: the unmapped value 3 reads
"Unknown". -/
def facing_word_claimed (f : Nat) : String :=
  match f with
  | 1 => "Front\n"
  | 2 => "Back\n"
  | _ => "Unknown\n"

/-- The facing word line written for the two facing bits: nothing for the
unmapped value 3. -/
def facing_word (f : Nat) : String :=
  match f with
  | 0 => "Unknown\n"
  | 1 => "Front\n"
  | 2 => "Back\n"
  | _ => ""

/-- The orientation name written for the three orientation bits: nothing for
the unmapped codes 3, 4 and 7. -/
def orientation_name (o : Nat) : String :=
  match o with
  | 0 => "Unknown PoLa"
  | 1 => "Landscape-Left"
  | 2 => "Landscape-Right"
  | 5 => "Portrait-Inverted"
  | 6 => "Portrait-Normal"
  | _ => ""

/-! ## Transports used as concrete inputs -/

/-- A transport on which every write succeeds and every read returns 0. -/
def quiet_bus : I2cBus := ⟨fun _ _ => 0, fun _ _ _ => 0⟩

/-- A transport on which every write fails with `-EIO` (-5). -/
def nak_bus : I2cBus := ⟨fun _ _ => 0, fun _ _ _ => -5⟩

/-- A transport whose every read returns 0x40: busy bit set, nothing else. -/
def stuck_bus : I2cBus := ⟨fun _ _ => 0x40, fun _ _ _ => 0⟩

/-- A transport whose XOUT register reads 0x80 (bit 7 set, busy bit clear). -/
def bit7_bus : I2cBus := ⟨fun _ reg => if reg = XOUT then 0x80 else 0, fun _ _ _ => 0⟩

/-- A transport with a settled sample: XOUT is busy (0x45) for the first two
transactions and then reads 0x3f, YOUT reads 0x05, ZOUT reads 0x20 and TILT
reads 0xa1. -/
def sample_bus : I2cBus :=
  ⟨fun h reg =>
      if reg = XOUT then (if h.length < 2 then 0x45 else 0x3f)
      else if reg = YOUT then 0x05
      else if reg = ZOUT then 0x20
      else 0xa1,
    fun _ _ _ => 0⟩

/-- A transport whose TILT read fails with `-EREMOTEIO` (-121), the axis
registers reading 0. -/
def tilt_nak_bus : I2cBus := ⟨fun _ reg => if reg = TILT then -121 else 0, fun _ _ _ => 0⟩

/-- A transport whose TILT read fails with `-EIO` (-5), the axis registers
reading 0. -/
def tilt_eio_bus : I2cBus := ⟨fun _ reg => if reg = TILT then -5 else 0, fun _ _ _ => 0⟩

/-! ## Configuration store: lemmas -/

theorem sr_reg_of_table {val : Int} {code : Nat} (h : (val, code) ∈ rate_table) :
    sr_reg_of val = some code ∧ to_u8 val = val.toNat ∧ val ∈ supported_rates := by
  simp only [rate_table, List.mem_cons, Prod.mk.injEq, List.mem_singleton, List.not_mem_nil,
    or_false] at h
  rcases h with h | h | h | h | h | h | h | h <;> obtain ⟨rfl, rfl⟩ := h <;> decide

theorem sr_reg_of_unsupported {val : Int} (h : val ∉ supported_rates) :
    sr_reg_of val = none := by
  simp only [supported_rates, List.mem_cons, List.mem_singleton, List.not_mem_nil, or_false,
    not_or] at h
  obtain ⟨h1, h2, h3, h4, h5, h6, h7, h8⟩ := h
  simp [sr_reg_of, h1, h2, h3, h4, h5, h6, h7, h8]

theorem store_shake_eq (bus : I2cBus) (client : i2c_client) (dev : mma7660_dev)
    (val : Int) (count : Nat) :
    mma7660_store bus client dev (some val) count SHAKE_ENABLE
      = ((count : Int), { dev with shake_enable := decide (val ≠ 0) }, client) := rfl

theorem store_tap_eq (bus : I2cBus) (client : i2c_client) (dev : mma7660_dev)
    (val : Int) (count : Nat) :
    mma7660_store bus client dev (some val) count TAP_ENABLE
      = if val ≠ 0 ∧ 120 ≠ dev.samples_per_sec then (-EINVAL, dev, client)
        else ((count : Int), { dev with tap_enable := decide (val ≠ 0) }, client) := rfl

theorem store_rate_none (bus : I2cBus) (client : i2c_client) (dev : mma7660_dev)
    (val : Int) (count : Nat) (h : sr_reg_of val = none) :
    mma7660_store bus client dev (some val) count SAMPLES_PER_SEC = (-EINVAL, dev, client) := by
  simp [mma7660_store, SAMPLES_PER_SEC, SHAKE_ENABLE, TAP_ENABLE, h]

theorem store_rate_some (bus : I2cBus) (client : i2c_client) (dev : mma7660_dev)
    (val : Int) (count : Nat) (code : Nat) (h : sr_reg_of val = some code) :
    mma7660_store bus client dev (some val) count SAMPLES_PER_SEC
      = if bus.write_byte_data client SR code ≠ 0 then
          (bus.write_byte_data client SR code, dev, client ++ [I2cOp.write SR code])
        else
          ((count : Int),
           ⟨dev.shake_enable, if val = 120 then dev.tap_enable else false, to_u8 val⟩,
           client ++ [I2cOp.write SR code]) := by
  simp only [mma7660_store, SAMPLES_PER_SEC, SHAKE_ENABLE, TAP_ENABLE, h,
    i2c_smbus_write_byte_data]
  by_cases hw : bus.write_byte_data client SR code = 0 <;>
    by_cases h120 : val = 120 <;> simp [hw, h120]

theorem store_other_eq (bus : I2cBus) (client : i2c_client) (dev : mma7660_dev)
    (val : Int) (count which : Nat) (h1 : which ≠ SHAKE_ENABLE) (h2 : which ≠ TAP_ENABLE)
    (h3 : which ≠ SAMPLES_PER_SEC) :
    mma7660_store bus client dev (some val) count which = ((count : Int), dev, client) := by
  simp [mma7660_store, h1, h2, h3]

theorem store_keeps_invariant (bus : I2cBus) (client : i2c_client) (dev : mma7660_dev)
    (parsed : Option Int) (count which : Nat) (h : tap_needs_120 dev) :
    tap_needs_120 (mma7660_store bus client dev parsed count which).2.1 := by
  cases parsed with
  | none => exact h
  | some val =>
    by_cases h1 : which = SHAKE_ENABLE
    · subst h1
      rw [store_shake_eq]
      exact h
    · by_cases h2 : which = TAP_ENABLE
      · subst h2
        rw [store_tap_eq]
        by_cases h3 : val ≠ 0 ∧ 120 ≠ dev.samples_per_sec
        · rw [if_pos h3]
          exact h
        · rw [if_neg h3]
          intro ht
          simp only [decide_eq_true_eq] at ht
          by_contra hne
          exact h3 ⟨ht, fun e => hne e.symm⟩
      · by_cases h4 : which = SAMPLES_PER_SEC
        · subst h4
          cases hsr : sr_reg_of val with
          | none =>
            rw [store_rate_none _ _ _ _ _ hsr]
            exact h
          | some code =>
            rw [store_rate_some _ _ _ _ _ _ hsr]
            by_cases hw : bus.write_byte_data client SR code ≠ 0
            · rw [if_pos hw]
              exact h
            · rw [if_neg hw]
              by_cases h120 : val = 120
              · subst h120
                intro _
                show to_u8 120 = 120
                decide
              · intro ht
                simp [h120] at ht
        · rw [store_other_eq _ _ _ _ _ _ h1 h2 h4]
          exact h

theorem init_establishes_invariant (bus : I2cBus) (client : i2c_client) (dev : mma7660_dev)
    (h : (mma7660_dev_init bus client dev).1 = 0) :
    tap_needs_120 (mma7660_dev_init bus client dev).2.1 := by
  unfold mma7660_dev_init at h ⊢
  simp only at h ⊢
  split_ifs at h ⊢ with h1 h2 h3 h4
  · exact absurd h h1
  · exact absurd h h2
  · exact absurd h h3
  · exact absurd h h4
  · intro _
    rfl

theorem run_stores_keeps_invariant (bus : I2cBus) (calls : List StoreCall) :
    ∀ s : mma7660_dev × i2c_client, tap_needs_120 s.1 →
      tap_needs_120 (run_stores bus calls s).1 := by
  induction calls with
  | nil => intro s h; exact h
  | cons call rest ih =>
    intro s h
    exact ih _ (store_keeps_invariant bus s.2 s.1 call.parsed call.count call.which h)

/-! ## Configuration store: claims -/

/-- C1. Configuration invariant: in the state left by a successful
`mma7660_dev_init` (return value 0) and in every state reached from it by a
finite sequence of `mma7660_store` calls, whatever the attribute, the parsed
value and the outcome of the register writes, `tap_enable` being true implies
`samples_per_sec` is 120. -/
theorem C1_tap_implies_120 (bus : I2cBus) (client : i2c_client) (dev0 : mma7660_dev)
    (calls : List StoreCall) (hinit : (mma7660_dev_init bus client dev0).1 = 0) :
    (run_stores bus calls (mma7660_dev_init bus client dev0).2).1.tap_enable = true →
      (run_stores bus calls (mma7660_dev_init bus client dev0).2).1.samples_per_sec = 120 :=
  run_stores_keeps_invariant bus calls _ (init_establishes_invariant bus client dev0 hinit)

/-- Witness of C1: after initialisation, the rate is set to 64, tap enabling
is refused, the rate is set back to 120 and tap is enabled. -/
theorem C1_tap_implies_120_witness :
    (mma7660_dev_init quiet_bus [] ⟨false, false, 0⟩).1 = 0 ∧
    (run_stores quiet_bus
      [⟨3, some 64, 3⟩, ⟨2, some 1, 2⟩, ⟨1, some 0, 2⟩, ⟨3, some 120, 4⟩, ⟨2, some 1, 2⟩]
      (mma7660_dev_init quiet_bus [] ⟨false, false, 0⟩).2).1 = ⟨false, true, 120⟩ ∧
    (run_stores quiet_bus
      [⟨3, some 64, 3⟩, ⟨2, some 1, 2⟩, ⟨1, some 0, 2⟩, ⟨3, some 120, 4⟩, ⟨2, some 1, 2⟩]
      (mma7660_dev_init quiet_bus [] ⟨false, false, 0⟩).2).1.samples_per_sec = 120 :=
  ⟨by decide, by decide,
    C1_tap_implies_120 quiet_bus [] ⟨false, false, 0⟩
      [⟨3, some 64, 3⟩, ⟨2, some 1, 2⟩, ⟨1, some 0, 2⟩, ⟨3, some 120, 4⟩, ⟨2, some 1, 2⟩]
      (by decide) (by decide)⟩

/-- C2. Tap enable: `mma7660_store` on `TAP_ENABLE` returns `-EINVAL` exactly
when the value is non-zero and the rate is not 120; then the three fields are
unchanged and no transaction is issued; otherwise it returns `count`, sets
`tap_enable` to `val != 0`, leaves the two other fields and issues no
transaction. Disabling (value 0) always returns `count`. -/
theorem C2_tap_enable_store (bus : I2cBus) (client : i2c_client) (dev : mma7660_dev)
    (val : Int) (count : Nat) :
    ((mma7660_store bus client dev (some val) count TAP_ENABLE).1 = -EINVAL ↔
      (val ≠ 0 ∧ dev.samples_per_sec ≠ 120)) ∧
    (if (mma7660_store bus client dev (some val) count TAP_ENABLE).1 = -EINVAL then
      (mma7660_store bus client dev (some val) count TAP_ENABLE).2 = (dev, client)
    else
      (mma7660_store bus client dev (some val) count TAP_ENABLE).1 = (count : Int) ∧
      (mma7660_store bus client dev (some val) count TAP_ENABLE).2.1.tap_enable
        = decide (val ≠ 0) ∧
      (mma7660_store bus client dev (some val) count TAP_ENABLE).2.1.shake_enable
        = dev.shake_enable ∧
      (mma7660_store bus client dev (some val) count TAP_ENABLE).2.1.samples_per_sec
        = dev.samples_per_sec ∧
      (mma7660_store bus client dev (some val) count TAP_ENABLE).2.2 = client) ∧
    (mma7660_store bus client dev (some 0) count TAP_ENABLE).1 = (count : Int) ∧
    (mma7660_store bus client ⟨dev.shake_enable, false, 64⟩ (some 1) count TAP_ENABLE)
      = (-EINVAL, ⟨dev.shake_enable, false, 64⟩, client) := by
  have hcount : ¬ ((count : Int) = -EINVAL) := by
    simp only [EINVAL]
    omega
  have h0 : mma7660_store bus client dev (some 0) count TAP_ENABLE
      = ((count : Int), { dev with tap_enable := false }, client) := by
    rw [store_tap_eq]
    simp
  have h64 : mma7660_store bus client ⟨dev.shake_enable, false, 64⟩ (some 1) count TAP_ENABLE
      = (-EINVAL, ⟨dev.shake_enable, false, 64⟩, client) := by
    rw [store_tap_eq]
    simp
  refine ⟨?_, ?_, by rw [h0], h64⟩
  · rw [store_tap_eq]
    by_cases h : val ≠ 0 ∧ 120 ≠ dev.samples_per_sec
    · rw [if_pos h]
      exact ⟨fun _ => ⟨h.1, fun e => h.2 e.symm⟩, fun _ => rfl⟩
    · rw [if_neg h]
      exact ⟨fun e => absurd e hcount, fun hh => absurd ⟨hh.1, fun e => hh.2 e.symm⟩ h⟩
  · rw [store_tap_eq]
    by_cases h : val ≠ 0 ∧ 120 ≠ dev.samples_per_sec
    · rw [if_pos h, if_pos rfl]
    · rw [if_neg h, if_neg hcount]
      exact ⟨rfl, rfl, rfl, rfl, rfl⟩

/-- C3. Sample rate commit: for a rate of the table, when the write to SR
succeeds, `mma7660_store` on `SAMPLES_PER_SEC` issues exactly one
transaction, the write of the table value to register 0x08, returns `count`,
stores the rate, leaves `shake_enable`, and leaves `tap_enable` when the rate
is 120 and clears it otherwise. -/
theorem C3_rate_commit (bus : I2cBus) (client : i2c_client) (dev : mma7660_dev)
    (val : Int) (code : Nat) (count : Nat) (hval : (val, code) ∈ rate_table)
    (hw : bus.write_byte_data client 0x08 code = 0) :
    mma7660_store bus client dev (some val) count SAMPLES_PER_SEC
      = ((count : Int),
         ⟨dev.shake_enable, if val = 120 then dev.tap_enable else false, val.toNat⟩,
         client ++ [I2cOp.write 0x08 code]) := by
  obtain ⟨hsr, hu8, _⟩ := sr_reg_of_table hval
  have hw2 : ¬ (bus.write_byte_data client SR code ≠ 0) := by
    simp only [SR, hw, ne_eq, not_true_eq_false, not_false_eq_true]
  rw [store_rate_some _ _ _ _ _ _ hsr, if_neg hw2, hu8]
  rfl

/-- Witness of C3: rate 64 while tap detection is enabled writes 0x01 to SR
and leaves tap detection disabled, without an error. -/
theorem C3_rate_commit_witness :
    mma7660_store quiet_bus [] ⟨true, true, 120⟩ (some 64) 3 SAMPLES_PER_SEC
      = (3, ⟨true, false, 64⟩, [I2cOp.write 0x08 0x01]) :=
  C3_rate_commit quiet_bus [] ⟨true, true, 120⟩ 64 1 3 (by decide) (by decide)

/-- C4. Sample rate rejection is atomic: an unsupported rate returns
`-EINVAL` with no transaction issued; a supported rate whose write to SR
returns a non-zero `e` returns exactly `e`; in both cases the three
configuration fields are unchanged. -/
theorem C4_rate_reject_atomic (bus : I2cBus) (client : i2c_client) (dev : mma7660_dev)
    (val : Int) (count : Nat) :
    (val ∉ supported_rates →
      mma7660_store bus client dev (some val) count SAMPLES_PER_SEC = (-EINVAL, dev, client)) ∧
    (∀ code : Nat, (val, code) ∈ rate_table → bus.write_byte_data client 0x08 code ≠ 0 →
      mma7660_store bus client dev (some val) count SAMPLES_PER_SEC
        = (bus.write_byte_data client 0x08 code, dev, client ++ [I2cOp.write 0x08 code])) := by
  constructor
  · intro h
    exact store_rate_none _ _ _ _ _ (sr_reg_of_unsupported h)
  · intro code hval hw
    obtain ⟨hsr, _, _⟩ := sr_reg_of_table hval
    have hw2 : bus.write_byte_data client SR code ≠ 0 := hw
    rw [store_rate_some _ _ _ _ _ _ hsr, if_pos hw2]
    rfl

/-- Witness of C4: rate 5 is refused without a transaction, and rate 64 on a
transport that fails with -5 returns -5; tap detection stays enabled. -/
theorem C4_rate_reject_atomic_witness :
    mma7660_store quiet_bus [] ⟨true, true, 120⟩ (some 5) 2 SAMPLES_PER_SEC
      = (-EINVAL, ⟨true, true, 120⟩, []) ∧
    mma7660_store nak_bus [] ⟨true, true, 120⟩ (some 64) 3 SAMPLES_PER_SEC
      = (-5, ⟨true, true, 120⟩, [I2cOp.write 0x08 0x01]) :=
  ⟨(C4_rate_reject_atomic quiet_bus [] ⟨true, true, 120⟩ 5 2).1 (by decide),
   (C4_rate_reject_atomic nak_bus [] ⟨true, true, 120⟩ 64 3).2 1 (by decide) (by decide)⟩

/-! ## Reading a sample: lemmas -/

/-- Among the bytes, those with bit 6 set and bit 7 clear are 0x40 .. 0x7f. -/
theorem axis_busy_bits (n : Nat) (h : n < 256) :
    (n &&& 0x40 ≠ 0 ∧ n &&& 0x80 = 0) ↔ axis_busy (n : Int) := by
  unfold axis_busy
  have e : (n &&& 0x40 ≠ 0 ∧ n &&& 0x80 = 0) ↔ (64 ≤ n ∧ n ≤ 127) := by
    interval_cases n <;> decide
  rw [e]
  omega

theorem to_s8_of_low (r : Int) (h0 : 0 ≤ r) (h1 : r ≤ 127) : to_s8 r = r := by
  unfold to_s8
  omega

theorem land64_of_busy (r : Int) (h : axis_busy r) : int_and r (2 ^ 6) ≠ 0 := by
  obtain ⟨h0, h1⟩ := h
  interval_cases r <;> decide

theorem land64_of_idle (r : Int) (h0 : 0 ≤ r) (h1 : r ≤ 63) : int_and r (2 ^ 6) = 0 := by
  interval_cases r <;> decide

theorem axis_decode_eq_sext6 (b : Nat) (h : b ≤ 63) : axis_decode (b : Int) = sext6 b := by
  interval_cases b <;> decide

theorem sext6_range (b : Nat) (h : b ≤ 63) :
    -32 ≤ sext6 b ∧ sext6 b ≤ 31 ∧
    (b &&& 0x20 = 0 → 0 ≤ sext6 b) ∧ (b &&& 0x20 ≠ 0 → sext6 b ≤ -1) ∧
    (b ≤ 31 → sext6 b = (b : Int)) := by
  interval_cases b <;> refine ⟨by decide, by decide, by decide, by decide, by decide⟩

theorem axis_loop_succ (bus : I2cBus) (reg fuel : Nat) (client : i2c_client) :
    axis_loop bus reg (fuel + 1) client
      = if to_s8 (bus.read_byte_data client reg) < 0 then
          some (AxisExit.returned (to_s8 (bus.read_byte_data client reg)),
            client ++ [I2cOp.read reg])
        else if int_and (to_s8 (bus.read_byte_data client reg)) (2 ^ 6) ≠ 0 then
          axis_loop bus reg fuel (client ++ [I2cOp.read reg])
        else
          some (AxisExit.fell_through (to_s8 (bus.read_byte_data client reg)),
            client ++ [I2cOp.read reg]) := rfl

theorem axis_loop_busy (bus : I2cBus) (reg fuel : Nat) (client : i2c_client)
    (h : axis_busy (bus.read_byte_data client reg)) :
    axis_loop bus reg (fuel + 1) client = axis_loop bus reg fuel (client ++ [I2cOp.read reg]) := by
  have hs := to_s8_of_low _ (le_trans (by decide) h.1) h.2
  rw [axis_loop_succ, hs, if_neg (not_lt.mpr (le_trans (by decide) h.1)),
    if_pos (land64_of_busy _ h)]

theorem axis_loop_idle (bus : I2cBus) (reg fuel : Nat) (client : i2c_client)
    (h0 : 0 ≤ bus.read_byte_data client reg) (h1 : bus.read_byte_data client reg ≤ 63) :
    axis_loop bus reg (fuel + 1) client
      = some (AxisExit.fell_through (bus.read_byte_data client reg),
          client ++ [I2cOp.read reg]) := by
  have hs := to_s8_of_low _ h0 (le_trans h1 (by decide))
  rw [axis_loop_succ, hs, if_neg (not_lt.mpr h0),
    if_neg (not_not.mpr (land64_of_idle _ h0 h1))]

/-- Busy replies on every read of `reg` keep its loop running whatever the fuel. -/
theorem axis_loop_stuck (bus : I2cBus) (reg : Nat)
    (hbusy : ∀ h, axis_busy (bus.read_byte_data h reg)) :
    ∀ (fuel : Nat) (client : i2c_client), axis_loop bus reg fuel client = none := by
  intro fuel
  induction fuel with
  | zero => intro client; rfl
  | succ n ih =>
    intro client
    rw [axis_loop_busy bus reg n client (hbusy client)]
    exact ih _

/-- The `return` inside an axis loop only ever returns a negative value. -/
theorem axis_loop_returned_neg (bus : I2cBus) (reg : Nat) :
    ∀ (fuel : Nat) (client : i2c_client) (e : Int) (c : i2c_client),
      axis_loop bus reg fuel client = some (AxisExit.returned e, c) → e < 0 := by
  intro fuel
  induction fuel with
  | zero => intro client e c h; simp [axis_loop] at h
  | succ n ih =>
    intro client e c h
    rw [axis_loop_succ] at h
    split_ifs at h with h1 h2
    · simp only [Option.some.injEq, Prod.mk.injEq, AxisExit.returned.injEq] at h
      rw [← h.1]
      exact h1
    · exact ih _ e c h
    · simp at h

theorem busy_then_shift (bus : I2cBus) (reg : Nat) (h : i2c_client) (k : Nat) (b : Int)
    (hrun : busy_then bus reg h (k + 1) b) :
    busy_then bus reg (h ++ [I2cOp.read reg]) k b := by
  have e : ∀ i, h ++ [I2cOp.read reg] ++ List.replicate i (I2cOp.read reg)
      = h ++ List.replicate (i + 1) (I2cOp.read reg) := by
    intro i
    simp [List.replicate_succ]
  constructor
  · intro i hi
    rw [e]
    exact hrun.1 (i + 1) (by omega)
  · rw [e]
    exact hrun.2

/-- A run of `k` busy bytes followed by a byte `b` in 0 .. 63 ends the loop
after `k + 1` reads with `b`, as soon as the fuel exceeds `k`. -/
theorem axis_loop_run (bus : I2cBus) (reg : Nat) (b : Int) (h0 : 0 ≤ b) (h1 : b ≤ 63) :
    ∀ (k fuel : Nat) (h : i2c_client), busy_then bus reg h k b → k < fuel →
      axis_loop bus reg fuel h
        = some (AxisExit.fell_through b, h ++ List.replicate (k + 1) (I2cOp.read reg)) := by
  intro k
  induction k with
  | zero =>
    intro fuel h hrun hf
    obtain ⟨n, rfl⟩ : ∃ n, fuel = n + 1 := ⟨fuel - 1, by omega⟩
    have hb : bus.read_byte_data h reg = b := by
      have := hrun.2
      simpa using this
    rw [axis_loop_idle bus reg n h (by rw [hb]; exact h0) (by rw [hb]; exact h1), hb]
    rfl
  | succ k ih =>
    intro fuel h hrun hf
    obtain ⟨n, rfl⟩ : ∃ n, fuel = n + 1 := ⟨fuel - 1, by omega⟩
    have hbusy : axis_busy (bus.read_byte_data h reg) := by
      have := hrun.1 0 (by omega)
      simpa using this
    rw [axis_loop_busy bus reg n h hbusy, ih n _ (busy_then_shift bus reg h k b hrun) (by omega)]
    simp [List.replicate_succ]

theorem get_tilt_succ (bus : I2cBus) (fuel : Nat) (client : i2c_client) :
    mma7660_get_tilt bus (fuel + 1) client
      = if ((to_u8 (bus.read_byte_data client TILT) : Nat) : Int) < 0 then
          some (((to_u8 (bus.read_byte_data client TILT) : Nat) : Int),
            to_u8 (bus.read_byte_data client TILT), client ++ [I2cOp.read TILT])
        else if to_u8 (bus.read_byte_data client TILT) &&& 2 ^ 6 ≠ 0 then
          mma7660_get_tilt bus fuel (client ++ [I2cOp.read TILT])
        else
          some (0, to_u8 (bus.read_byte_data client TILT), client ++ [I2cOp.read TILT]) := rfl

/-- Replies whose low byte has bit 6 set keep the TILT loop running whatever
the fuel. -/
theorem get_tilt_stuck (bus : I2cBus)
    (hbusy : ∀ h, to_u8 (bus.read_byte_data h TILT) &&& 2 ^ 6 ≠ 0) :
    ∀ (fuel : Nat) (client : i2c_client), mma7660_get_tilt bus fuel client = none := by
  intro fuel
  induction fuel with
  | zero => intro client; rfl
  | succ n ih =>
    intro client
    rw [get_tilt_succ, if_neg (by omega), if_pos (hbusy client)]
    exact ih _

theorem to_u8_of_byte (r : Int) (h0 : 0 ≤ r) (h1 : r ≤ 255) : to_u8 r = r.toNat := by
  unfold to_u8
  congr 1
  omega

theorem get_xyz_stuck_x (bus : I2cBus) (hbusy : ∀ h, axis_busy (bus.read_byte_data h XOUT))
    (fuel : Nat) (client : i2c_client) (xyz : mma7660_xyz) :
    mma7660_get_xyz bus fuel client xyz = none := by
  simp [mma7660_get_xyz, axis_loop_stuck bus XOUT hbusy]

theorem get_xyz_stuck_yz (bus : I2cBus)
    (hbusy : (∀ h, axis_busy (bus.read_byte_data h YOUT)) ∨
      (∀ h, axis_busy (bus.read_byte_data h ZOUT)))
    (fuel : Nat) (client : i2c_client) (xyz : mma7660_xyz)
    (r : Int × mma7660_xyz × i2c_client)
    (hr : mma7660_get_xyz bus fuel client xyz = some r) : r.1 < 0 := by
  unfold mma7660_get_xyz at hr
  split at hr
  · simp at hr
  · rename_i e c1 hx
    simp only [Option.some.injEq] at hr
    rw [← hr]
    exact axis_loop_returned_neg bus XOUT fuel client e c1 hx
  · simp only at hr
    split at hr
    · simp at hr
    · rename_i e c2 hy
      simp only [Option.some.injEq] at hr
      rw [← hr]
      exact axis_loop_returned_neg bus YOUT fuel _ e c2 hy
    · rename_i b c2 hy
      rcases hbusy with hb | hb
      · rw [axis_loop_stuck bus YOUT hb] at hy
        simp at hy
      · rw [axis_loop_stuck bus ZOUT hb] at hr
        simp at hr

theorem shift_and_one (s k : Nat) : (s >>> k) &&& 0x01 = s / 2 ^ k % 2 := by
  rw [Nat.shiftRight_eq_div_pow, Nat.and_one_is_mod]

/-- An XOUT reply whose `s8` truncation is negative ends `mma7660_get_xyz`
after that one read with the truncated value, and the poll publishes
nothing. -/
theorem get_xyz_x_negative (bus : I2cBus) (fuel : Nat) (client : i2c_client) (dev : mma7660_dev)
    (xyz : mma7660_xyz) (h1 : to_s8 (bus.read_byte_data client XOUT) < 0) :
    mma7660_get_xyz bus (fuel + 1) client xyz
      = some (to_s8 (bus.read_byte_data client XOUT),
          { xyz with xout := to_s8 (bus.read_byte_data client XOUT) },
          client ++ [I2cOp.read XOUT]) ∧
    mma7660_poll bus (fuel + 1) client dev xyz = some ([], client ++ [I2cOp.read XOUT]) := by
  have hx : mma7660_get_xyz bus (fuel + 1) client xyz
      = some (to_s8 (bus.read_byte_data client XOUT),
          { xyz with xout := to_s8 (bus.read_byte_data client XOUT) },
          client ++ [I2cOp.read XOUT]) := by
    simp only [mma7660_get_xyz, axis_loop_succ, if_pos h1]
  refine ⟨hx, ?_⟩
  simp only [mma7660_poll, hx]
  rw [if_pos (ne_of_lt h1)]

/-- A failed XOUT read whose error code fits an `s8` ends `mma7660_get_xyz`
after that one read with the error code, and the poll publishes nothing. -/
theorem get_xyz_x_error (bus : I2cBus) (fuel : Nat) (client : i2c_client) (dev : mma7660_dev)
    (xyz : mma7660_xyz) (e : Int) (he : bus.read_byte_data client XOUT = e)
    (h0 : -128 ≤ e) (h1 : e < 0) :
    mma7660_get_xyz bus (fuel + 1) client xyz
      = some (e, { xyz with xout := e }, client ++ [I2cOp.read XOUT]) ∧
    mma7660_poll bus (fuel + 1) client dev xyz = some ([], client ++ [I2cOp.read XOUT]) := by
  have hs : to_s8 e = e := by
    unfold to_s8
    omega
  have h := get_xyz_x_negative bus fuel client dev xyz (by rw [he, hs]; exact h1)
  rw [he, hs] at h
  exact h

/-! ## Reading a sample: claims -/

/-- C5. Read-error propagation, evaluated where it fails. The claim: a failed
read of XOUT, YOUT, ZOUT or TILT ends the sample read at once with the error
code, and `mma7660_poll` publishes nothing. At a TILT read failing with -121,
`mma7660_get_tilt` returns 0 with status byte 0x87 and `mma7660_poll`
publishes the whole event set; at a TILT read failing with -5 the loop takes
the truncated code 0xfb for a busy byte and never returns. -/
theorem C5_tilt_error_not_propagated :
    mma7660_get_tilt tilt_nak_bus 1 [] = some (0, 0x87, [I2cOp.read TILT]) ∧
    mma7660_poll tilt_nak_bus 1 [] ⟨true, true, 120⟩ ⟨0, 0, 0⟩
      = some ([InputCall.report_abs AbsCode.ABS_X 0,
               InputCall.report_abs AbsCode.ABS_Y 0,
               InputCall.report_abs AbsCode.ABS_Z 0,
               InputCall.report_abs AbsCode.ABS_MT_ORIENTATION 7,
               InputCall.msc_gesture 1,
               InputCall.key_btn_select 0,
               InputCall.sync],
              [I2cOp.read XOUT, I2cOp.read YOUT, I2cOp.read ZOUT, I2cOp.read TILT]) ∧
    ¬ ∃ fuel, (mma7660_get_tilt tilt_eio_bus fuel []).isSome = true := by
  refine ⟨by decide, by decide, ?_⟩
  rintro ⟨fuel, h⟩
  rw [get_tilt_stuck tilt_eio_bus
    (fun _ => (by decide : to_u8 (-5) &&& 2 ^ 6 ≠ 0)) fuel []] at h
  exact absurd h (by decide)

/-- C6, as stated, fails: a successful XOUT reply 0x80 has bit 6 clear, yet
`mma7660_get_xyz` returns -128 after that read and never returns 0. -/
theorem C6_counterexample :
    mma7660_get_xyz bit7_bus 1 [] ⟨0, 0, 0⟩ = some (-128, ⟨-128, 0, 0⟩, [I2cOp.read XOUT]) ∧
    ¬ ∃ fuel xyz c, mma7660_get_xyz bit7_bus fuel [] ⟨0, 0, 0⟩ = some (0, xyz, c) := by
  refine ⟨by decide, ?_⟩
  rintro ⟨fuel, xyz, c, h⟩
  cases fuel with
  | zero => simp [mma7660_get_xyz, axis_loop] at h
  | succ n =>
    have hx := (get_xyz_x_negative bit7_bus n [] ⟨true, true, 120⟩ ⟨0, 0, 0⟩
      (by decide)).1
    rw [hx] at h
    simp only [Option.some.injEq, Prod.mk.injEq] at h
    exact absurd h.1 (by decide)

/-- C6, amended. Axis decoding: when, for each axis register in turn, the
replies are a run of busy bytes with bit 7 clear (0x40 .. 0x7f) followed by a
byte `r` with bits 7 and 6 clear (0 .. 63), `mma7660_get_xyz` returns 0 once
the fuel covers the runs, has issued exactly those reads, and stores for each
axis the 6-bit two's complement value of the low six bits of `r`: `r & 0x3f`
in [0, 31] when bit 5 is clear (equal to `r` for `r` in [0, 31]) and
`(r & 0x3f) - 64` in [-32, -1] when bit 5 is set. -/
theorem C6_axis_decoding (bus : I2cBus) (h : i2c_client) (xyz : mma7660_xyz)
    (fuel kx ky kz rx ry rz : Nat)
    (hrx : rx ≤ 63) (hry : ry ≤ 63) (hrz : rz ≤ 63)
    (hx : busy_then bus XOUT h kx rx)
    (hy : busy_then bus YOUT (h ++ List.replicate (kx + 1) (I2cOp.read XOUT)) ky ry)
    (hz : busy_then bus ZOUT
      (h ++ List.replicate (kx + 1) (I2cOp.read XOUT)
         ++ List.replicate (ky + 1) (I2cOp.read YOUT)) kz rz)
    (hfuel : kx < fuel ∧ ky < fuel ∧ kz < fuel) :
    mma7660_get_xyz bus fuel h xyz
      = some (0, ⟨sext6 rx, sext6 ry, sext6 rz⟩,
          h ++ List.replicate (kx + 1) (I2cOp.read XOUT)
            ++ List.replicate (ky + 1) (I2cOp.read YOUT)
            ++ List.replicate (kz + 1) (I2cOp.read ZOUT)) ∧
    (∀ r ∈ [rx, ry, rz],
      -32 ≤ sext6 r ∧ sext6 r ≤ 31 ∧
      (r &&& 0x20 = 0 → 0 ≤ sext6 r) ∧ (r &&& 0x20 ≠ 0 → sext6 r ≤ -1) ∧
      (r ≤ 31 → sext6 r = (r : Int))) := by
  constructor
  · have ex := axis_loop_run bus XOUT rx (by omega) (by omega) kx fuel h hx hfuel.1
    have ey := axis_loop_run bus YOUT ry (by omega) (by omega) ky fuel _ hy hfuel.2.1
    have ez := axis_loop_run bus ZOUT rz (by omega) (by omega) kz fuel _ hz hfuel.2.2
    simp only [mma7660_get_xyz, ex, ey, ez, axis_decode_eq_sext6 rx hrx,
      axis_decode_eq_sext6 ry hry, axis_decode_eq_sext6 rz hrz]
  · intro r hr
    simp only [List.mem_cons, List.mem_singleton, List.not_mem_nil, or_false] at hr
    rcases hr with rfl | rfl | rfl
    · exact sext6_range _ hrx
    · exact sext6_range _ hry
    · exact sext6_range _ hrz

/-- Witness of C6: XOUT is busy twice and then reads 0x3f, YOUT reads 0x05,
ZOUT reads 0x20; the stored sample is (-1, 5, -32). -/
theorem C6_axis_decoding_witness :
    mma7660_get_xyz sample_bus 3 [] ⟨0, 0, 0⟩
      = some (0, ⟨-1, 5, -32⟩,
          [I2cOp.read XOUT, I2cOp.read XOUT, I2cOp.read XOUT, I2cOp.read YOUT,
           I2cOp.read ZOUT]) :=
  (C6_axis_decoding sample_bus [] ⟨0, 0, 0⟩ 3 2 0 0 0x3f 0x05 0x20
    (by decide) (by decide) (by decide)
    ⟨by intro i hi; interval_cases i <;> exact ⟨by decide, by decide⟩, by decide⟩
    ⟨by intro i hi; exact absurd hi (by omega), by decide⟩
    ⟨by intro i hi; exact absurd hi (by omega), by decide⟩
    ⟨by decide, by decide, by decide⟩).1

/-- C7. Event derivation: after a sample read that returned 0 with axis
values `x`, `y`, `z` and status byte `s`, `mma7660_poll` makes exactly these
calls, in order: ABS_X = x, ABS_Y = y, ABS_Z = z, ABS_MT_ORIENTATION =
`s & 0x1f`, MSC_GESTURE with bit 7 of `s` exactly when `shake_enable`,
BTN_SELECT with bit 5 of `s` exactly when `tap_enable`, and a sync. With
`tap_enable` false no BTN_SELECT call is among them. -/
theorem C7_event_derivation (bus : I2cBus) (fuel : Nat) (client c1 c2 : i2c_client)
    (dev : mma7660_dev) (xyz0 : mma7660_xyz) (x y z : Int) (s : Nat)
    (hxyz : mma7660_get_xyz bus fuel client xyz0 = some (0, ⟨x, y, z⟩, c1))
    (htilt : mma7660_get_tilt bus fuel c1 = some (0, s, c2)) :
    mma7660_poll bus fuel client dev xyz0
      = some ([InputCall.report_abs AbsCode.ABS_X x,
               InputCall.report_abs AbsCode.ABS_Y y,
               InputCall.report_abs AbsCode.ABS_Z z,
               InputCall.report_abs AbsCode.ABS_MT_ORIENTATION ((s &&& 0x1f : Nat) : Int)]
              ++ (if dev.shake_enable = true then
                    [InputCall.msc_gesture ((s / 2 ^ 7 % 2 : Nat) : Int)] else [])
              ++ (if dev.tap_enable = true then
                    [InputCall.key_btn_select ((s / 2 ^ 5 % 2 : Nat) : Int)] else [])
              ++ [InputCall.sync], c2) ∧
    (dev.tap_enable = false → ∀ evs c, mma7660_poll bus fuel client dev xyz0 = some (evs, c) →
      ∀ v, InputCall.key_btn_select v ∉ evs) := by
  have hp : mma7660_poll bus fuel client dev xyz0
      = some ([InputCall.report_abs AbsCode.ABS_X x,
               InputCall.report_abs AbsCode.ABS_Y y,
               InputCall.report_abs AbsCode.ABS_Z z,
               InputCall.report_abs AbsCode.ABS_MT_ORIENTATION ((s &&& 0x1f : Nat) : Int)]
              ++ (if dev.shake_enable = true then
                    [InputCall.msc_gesture ((s / 2 ^ 7 % 2 : Nat) : Int)] else [])
              ++ (if dev.tap_enable = true then
                    [InputCall.key_btn_select ((s / 2 ^ 5 % 2 : Nat) : Int)] else [])
              ++ [InputCall.sync], c2) := by
    simp only [mma7660_poll, hxyz, htilt, shift_and_one]
    rfl
  refine ⟨hp, ?_⟩
  intro htap evs c hpoll v
  rw [hp, htap] at hpoll
  simp only [Option.some.injEq, Prod.mk.injEq] at hpoll
  rw [← hpoll.1]
  cases dev.shake_enable <;> simp

/-- Witness of C7: XOUT settles on 0x3f after two busy reads, YOUT reads
0x05, ZOUT 0x20 and TILT 0xa1, with shake and tap detection enabled. -/
theorem C7_event_derivation_witness :
    mma7660_poll sample_bus 3 [] ⟨true, true, 120⟩ ⟨0, 0, 0⟩
      = some ([InputCall.report_abs AbsCode.ABS_X (-1),
               InputCall.report_abs AbsCode.ABS_Y 5,
               InputCall.report_abs AbsCode.ABS_Z (-32),
               InputCall.report_abs AbsCode.ABS_MT_ORIENTATION 1,
               InputCall.msc_gesture 1,
               InputCall.key_btn_select 1,
               InputCall.sync],
              [I2cOp.read XOUT, I2cOp.read XOUT, I2cOp.read XOUT, I2cOp.read YOUT,
               I2cOp.read ZOUT, I2cOp.read TILT]) :=
  (C7_event_derivation sample_bus 3 []
    [I2cOp.read XOUT, I2cOp.read XOUT, I2cOp.read XOUT, I2cOp.read YOUT, I2cOp.read ZOUT]
    [I2cOp.read XOUT, I2cOp.read XOUT, I2cOp.read XOUT, I2cOp.read YOUT, I2cOp.read ZOUT,
     I2cOp.read TILT]
    ⟨true, true, 120⟩ ⟨0, 0, 0⟩ (-1) 5 (-32) 0xa1 (by decide) (by decide)).1

/-- C9, as stated, fails: on a transport that answers every read with 0x40
(busy bit set) neither `mma7660_get_xyz` nor `mma7660_get_tilt` returns
anything, whatever the number of loop iterations granted. -/
theorem C9_counterexample :
    (¬ ∃ fuel, (mma7660_get_xyz stuck_bus fuel [] ⟨0, 0, 0⟩).isSome = true) ∧
    (¬ ∃ fuel, (mma7660_get_tilt stuck_bus fuel []).isSome = true) := by
  constructor
  · rintro ⟨fuel, h⟩
    rw [get_xyz_stuck_x stuck_bus
      (fun _ => ⟨(by decide : (64 : Int) ≤ 0x40), (by decide : (0x40 : Int) ≤ 127)⟩)
      fuel [] ⟨0, 0, 0⟩] at h
    exact absurd h (by decide)
  · rintro ⟨fuel, h⟩
    rw [get_tilt_stuck stuck_bus
      (fun _ => (by decide : to_u8 0x40 &&& 2 ^ 6 ≠ 0)) fuel []] at h
    exact absurd h (by decide)

/-- C9, amended. Unbounded busy-wait: the read loops have no retry bound and
no timeout error. If every read of XOUT is answered with a busy byte (bit 6
set, bit 7 clear), `mma7660_get_xyz` never returns; if every read of YOUT or
of ZOUT is, it never returns 0 (it returns the error of an earlier register
or does not return); if every read of TILT is answered with a byte with bit
6 set, `mma7660_get_tilt` never returns. -/
theorem C9_busy_wait_unbounded (bus : I2cBus) :
    ((∀ h, axis_busy (bus.read_byte_data h XOUT)) →
      ∀ fuel client xyz, mma7660_get_xyz bus fuel client xyz = none) ∧
    (((∀ h, axis_busy (bus.read_byte_data h YOUT)) ∨
        (∀ h, axis_busy (bus.read_byte_data h ZOUT))) →
      ∀ fuel client xyz r, mma7660_get_xyz bus fuel client xyz = some r → r.1 < 0) ∧
    ((∀ h, tilt_busy (bus.read_byte_data h TILT)) →
      ∀ fuel client, mma7660_get_tilt bus fuel client = none) := by
  refine ⟨fun hb fuel client xyz => get_xyz_stuck_x bus hb fuel client xyz,
    fun hb fuel client xyz r hr => get_xyz_stuck_yz bus hb fuel client xyz r hr, ?_⟩
  intro hb fuel client
  refine get_tilt_stuck bus (fun h => ?_) fuel client
  obtain ⟨h0, h1, h2⟩ := hb h
  rw [to_u8_of_byte _ h0 h1]
  exact h2

/-- Witness of C9: the transport that answers every read with 0x40. -/
theorem C9_busy_wait_unbounded_witness :
    mma7660_get_xyz stuck_bus 1000 [] ⟨0, 0, 0⟩ = none ∧
    mma7660_get_tilt stuck_bus 1000 [] = none :=
  ⟨(C9_busy_wait_unbounded stuck_bus).1
      (fun _ => ⟨(by decide : (64 : Int) ≤ 0x40), (by decide : (0x40 : Int) ≤ 127)⟩)
      1000 [] ⟨0, 0, 0⟩,
   (C9_busy_wait_unbounded stuck_bus).2.2
      (fun _ => ⟨(by decide : (0 : Int) ≤ 0x40), (by decide : (0x40 : Int) ≤ 255),
        (by decide : (0x40 : Int).toNat &&& 0x40 ≠ 0)⟩)
      1000 []⟩

/-! ## Diagnostic text: lemmas -/

theorem and_two_pow_ne_zero (s k : Nat) : s &&& 2 ^ k ≠ 0 ↔ s.testBit k = true := by
  constructor
  · intro h
    by_contra hb
    apply h
    apply Nat.eq_of_testBit_eq
    intro i
    simp only [Nat.testBit_and, Nat.testBit_two_pow, Nat.zero_testBit]
    by_cases hki : k = i
    · subst hki
      simp [hb]
    · simp [hki]
  · intro hb h
    have h2 := congrArg (fun n => n.testBit k) h
    simp [Nat.testBit_and, Nat.testBit_two_pow, hb] at h2

theorem and_3_eq_mod (s : Nat) : s &&& 0x03 = s % 4 :=
  Nat.and_pow_two_sub_one_eq_mod s 2

theorem pola_bits_eq (s : Nat) : (s &&& 0x1c) >>> 2 = s / 4 % 8 := by
  have h1 : s &&& 0x1c = (s % 32) &&& 0x1c := by
    have e : s &&& 0x1c = (s &&& 31) &&& 0x1c := by
      rw [Nat.and_assoc]
      rfl
    rw [e]
    congr 1
    exact Nat.and_pow_two_sub_one_eq_mod s 5
  have h2 : ∀ t, t < 32 → (t &&& 0x1c) >>> 2 = t / 4 % 8 := by
    intro t ht
    interval_cases t <;> rfl
  rw [h1, h2 _ (Nat.mod_lt _ (by decide))]
  omega

/-- The text of `mma7660_get_tilt_buf`, line by line. -/
theorem tilt_buf_eq (dev : mma7660_dev) (s : Nat) :
    mma7660_get_tilt_buf dev s
      = shake_line dev s ++ tap_line dev s ++ "Facing : " ++ facing_word (s % 4)
          ++ orientation_name (s / 4 % 8) := by
  have h7 : (s &&& 2 ^ 7 ≠ 0) = (s.testBit 7 = true) := propext (and_two_pow_ne_zero s 7)
  have h5 : (s &&& 2 ^ 5 ≠ 0) = (s.testBit 5 = true) := propext (and_two_pow_ne_zero s 5)
  have hf : s % 4 < 4 := Nat.mod_lt _ (by decide)
  have ho : s / 4 % 8 < 8 := Nat.mod_lt _ (by decide)
  simp only [mma7660_get_tilt_buf, and_3_eq_mod, pola_bits_eq, h7, h5, shake_line, tap_line]
  generalize s % 4 = f at hf
  generalize s / 4 % 8 = o at ho
  interval_cases f <;> interval_cases o <;>
    cases dev.shake_enable <;> cases dev.tap_enable <;> cases s.testBit 7 <;>
    cases s.testBit 5 <;> rfl

theorem fmt_3d_length (v : Int) : 3 ≤ (fmt_3d v).length := by
  unfold fmt_3d
  simp only [String.length_append, String.length_mk, List.length_replicate]
  omega

/-- The text formatted into `buff` is at least 134 characters long, whatever
the sample and the configuration. -/
theorem debug_buff_length_ge (dev : mma7660_dev) (xyz : mma7660_xyz) (s : Nat) :
    134 ≤ (debug_buff xyz (mma7660_get_tilt_buf dev s)).length := by
  have hx := fmt_3d_length xyz.xout
  have hy := fmt_3d_length xyz.yout
  have hz := fmt_3d_length xyz.zout
  have hs : 15 ≤ (shake_line dev s).length := by
    unfold shake_line
    split_ifs <;> decide
  have ht : 13 ≤ (tap_line dev s).length := by
    unfold tap_line
    split_ifs <;> decide
  have e1 : ("===========================\n" : String).length = 28 := by decide
  have e2 : (" X : " : String).length = 5 := by decide
  have e3 : ("\n Y : " : String).length = 6 := by decide
  have e4 : ("\n Z : " : String).length = 6 := by decide
  have e5 : ("\n\nTilt info :\n" : String).length = 14 := by decide
  have e6 : ("\n" : String).length = 1 := by decide
  have e7 : ("Facing : " : String).length = 9 := by decide
  rw [tilt_buf_eq]
  simp only [debug_buff, String.length_append, e1, e2, e3, e4, e5, e6, e7]
  omega

/-- The text `mma7660_get_tilt_buf` writes is at most 73 characters long, so
it fits the 128 byte `tilt_buf` with its terminating NUL. -/
theorem tilt_buf_length_le (dev : mma7660_dev) (s : Nat) :
    (mma7660_get_tilt_buf dev s).length ≤ 73 ∧
    (mma7660_get_tilt_buf dev s).length + 1 ≤ DEBUG_BUF_SIZE := by
  have hs : (shake_line dev s).length ≤ 23 := by
    unfold shake_line
    split_ifs <;> decide
  have ht : (tap_line dev s).length ≤ 16 := by
    unfold tap_line
    split_ifs <;> decide
  have hf : (facing_word (s % 4)).length ≤ 8 := by
    have hlt : s % 4 < 4 := Nat.mod_lt _ (by decide)
    generalize s % 4 = f at hlt
    interval_cases f <;> decide
  have ho : (orientation_name (s / 4 % 8)).length ≤ 17 := by
    have hlt : s / 4 % 8 < 8 := Nat.mod_lt _ (by decide)
    generalize s / 4 % 8 = o at hlt
    interval_cases o <;> decide
  have e7 : ("Facing : " : String).length = 9 := by decide
  rw [tilt_buf_eq]
  simp only [String.length_append, e7, DEBUG_BUF_SIZE]
  omega

/-! ## Diagnostic text: claims -/

/-- C8, as stated, fails: for the status byte 3 (facing bits 3, orientation
bits 0) the text is "Facing : " directly followed by "Unknown PoLa"; it does
not end with "Facing : ", a facing word line and the orientation name. -/
theorem C8_counterexample :
    mma7660_get_tilt_buf ⟨false, false, 120⟩ 3
      = "Shake disabled\nTap disabled\nFacing : Unknown PoLa" ∧
    ¬ ∃ pre : String, mma7660_get_tilt_buf ⟨false, false, 120⟩ 3
      = pre ++ "Facing : " ++ facing_word_claimed (3 % 4) ++ orientation_name (3 / 4 % 8) := by
  refine ⟨by decide, ?_⟩
  rintro ⟨pre, h⟩
  have h2 := congrArg String.length h
  have h3 := congrArg String.data h
  have e1 : (mma7660_get_tilt_buf ⟨false, false, 120⟩ 3).data
      = "Shake disabled\nTap disabled\nFacing : Unknown PoLa".data := by decide
  have e2 : ("Facing : " ++ facing_word_claimed (3 % 4) ++ orientation_name (3 / 4 % 8)).data
      = "Facing : Unknown\nUnknown PoLa".data := by decide
  have hsuf : "Facing : Unknown\nUnknown PoLa".data
      <:+ "Shake disabled\nTap disabled\nFacing : Unknown PoLa".data := by
    refine ⟨pre.data, ?_⟩
    rw [← e1, h3, ← e2]
    simp only [String.data_append, List.append_assoc]
  exact absurd hsuf (by decide)

/-- C8, amended. The text written by `mma7660_get_tilt_buf` is the shake
line, the tap line, "Facing : ", the facing word line chosen by bits[1:0] of
the status (0 -> "Unknown", 1 -> "Front", 2 -> "Back", and nothing for the
unmapped value 3), and the orientation name chosen by bits[4:2] (0 ->
"Unknown PoLa", 1 -> "Landscape-Left", 2 -> "Landscape-Right", 5 ->
"Portrait-Inverted", 6 -> "Portrait-Normal", and nothing for 3, 4, 7). -/
theorem C8_facing_orientation_text (dev : mma7660_dev) (s : Nat) :
    mma7660_get_tilt_buf dev s
      = shake_line dev s ++ tap_line dev s ++ "Facing : " ++ facing_word (s % 4)
          ++ orientation_name (s / 4 % 8) ∧
    facing_word 3 = "" ∧
    orientation_name 3 = "" ∧ orientation_name 4 = "" ∧ orientation_name 7 = "" :=
  ⟨tilt_buf_eq dev s, rfl, rfl, rfl, rfl⟩

/-- C10, evaluated where it fails. The claim: the text formatted into the 128
byte `buff` is at most 127 characters long. With the configuration of
`mma7660_dev_init`, the sample (0, 0, 0) and the status byte 0 the text is
165 characters long, and no input makes it shorter than 134; the text of
`mma7660_get_tilt_buf`, 68 characters here, does fit. -/
theorem C10_debug_buff_overflows :
    mma7660_debug_read quiet_bus 1 [] ⟨true, true, 120⟩ ⟨0, 0, 0⟩
      = some (Except.ok
          ("===========================\n X :   0\n Y :   0\n Z :   0\n\nTilt info :\n"
            ++ "Not experiencing shake\nNo tap detected\nFacing : Unknown\nUnknown PoLa\n"
            ++ "===========================\n"),
          [I2cOp.read XOUT, I2cOp.read YOUT, I2cOp.read ZOUT, I2cOp.read TILT]) ∧
    (debug_buff ⟨0, 0, 0⟩ (mma7660_get_tilt_buf ⟨true, true, 120⟩ 0)).length = 165 ∧
    DEBUG_BUF_SIZE = 128 ∧
    (mma7660_get_tilt_buf ⟨true, true, 120⟩ 0).length = 68 ∧
    (∀ (dev : mma7660_dev) (xyz : mma7660_xyz) (s : Nat),
      DEBUG_BUF_SIZE < (debug_buff xyz (mma7660_get_tilt_buf dev s)).length + 1) := by
  refine ⟨rfl, rfl, rfl, rfl, ?_⟩
  intro dev xyz s
  have h := debug_buff_length_ge dev xyz s
  simp only [DEBUG_BUF_SIZE]
  omega

end MMA7660
